import Mathlib

/-
Verification development for the AISourceDump repository.

The repository contains two revisions of the same tool:
  * `src/dump.py`            — embedded below under namespace `Dump`
  * `src/CodeDump/dump.py`   — embedded below under namespace `CodeDump`

Both revisions resolve include/exclude verdicts for relative paths through a
two/three-stage filter: Stage 1 evaluates user rules ("last match wins"),
Stage 2 consults project .gitignore specs, Stage 3 an optional extension
allow-list.  The pattern dialect is the gitwildmatch dialect of the external
`pathspec` library; it is modelled here (`matchFile`) for the fragment of the
dialect the rules in question use: literal characters, `*` (any run of
non-separator characters), `?` (one non-separator character), leading-`/`
or internal-`/` anchoring, trailing-`/` directory patterns, and the implicit
matching of a matched directory's contents.
-/

namespace SourceDump

/-! ## gitwildmatch pattern matching (models pathspec.GitWildMatchPattern) -/

/-- Tokens of a compiled gitwildmatch pattern.  `lit` is a literal character
(including the separator `/`), `star` is `*` (zero or more non-separator
characters), `qmark` is `?` (exactly one non-separator character), `anychar`
matches one arbitrary character and `anyseq` zero or more arbitrary
characters; the last two encode the regex pieces `.` and `.*` that pathspec
inserts around the pattern core. -/
inductive GTok where
| lit (c : Char)
| star
| qmark
| anychar
| anyseq
deriving DecidableEq

/-- Fuel-indexed regex-style matcher for a token list against a character
list.  Every recursive call strictly decreases `ts.length + cs.length`, so
fuel `ts.length + cs.length + 1` makes the fuel case unreachable; the fuel
argument only serves structural recursion. -/
def mtchF : Nat → List GTok → List Char → Bool
| 0, _, _ => false
| _ + 1, [], [] => true
| _ + 1, [], _ :: _ => false
| _ + 1, GTok.lit _ :: _, [] => false
| n + 1, GTok.lit c :: ts, x :: xs => c = x && mtchF n ts xs
| _ + 1, GTok.qmark :: _, [] => false
| n + 1, GTok.qmark :: ts, x :: xs => x ≠ '/' && mtchF n ts xs
| _ + 1, GTok.anychar :: _, [] => false
| n + 1, GTok.anychar :: ts, _ :: xs => mtchF n ts xs
| n + 1, GTok.star :: ts, [] => mtchF n ts []
| n + 1, GTok.star :: ts, x :: xs =>
    mtchF n ts (x :: xs) || (x ≠ '/' && mtchF n (GTok.star :: ts) xs)
| n + 1, GTok.anyseq :: ts, [] => mtchF n ts []
| n + 1, GTok.anyseq :: ts, x :: xs =>
    mtchF n ts (x :: xs) || mtchF n (GTok.anyseq :: ts) xs

/-- Run the matcher with sufficient fuel. -/
def gmatch (ts : List GTok) (cs : List Char) : Bool :=
  mtchF (ts.length + cs.length + 1) ts cs

/-- Translate the core of a pattern (prefix markers and anchors already
stripped) into tokens. -/
def tokenize : List Char → List GTok
| [] => []
| '*' :: rest => GTok.star :: tokenize rest
| '?' :: rest => GTok.qmark :: tokenize rest
| c :: rest => GTok.lit c :: tokenize rest

/-- `matchFile pat path` models `GitWildMatchPattern(pat).match_file(path)`
for the pattern fragment used by the claims:
  * a trailing `/` makes the pattern directory-only (it matches the
    directory path itself and everything below it);
  * a leading or internal `/` anchors the pattern at the root, otherwise the
    pattern may match after any `nonempty-prefix/` (pathspec's `(?:.+/)?`);
  * a non-directory pattern also matches everything below a matched name
    (pathspec's `(?:/.*)?` suffix);
  * the whole path must be consumed ( pathspec anchors with `^...$`). -/
def matchFile (pat path : String) : Bool :=
  let cs0 := pat.toList
  if cs0 = [] then false else
  let dirOnly := cs0.getLast? = some '/'
  let cs1 := if dirOnly then cs0.dropLast else cs0
  let anchoredLead := cs1.head? = some '/'
  let cs2 := if anchoredLead then cs1.drop 1 else cs1
  let anchored := anchoredLead || cs2.contains '/'
  let base := tokenize cs2
  let tails :=
    if dirOnly then [base ++ [GTok.lit '/', GTok.anyseq]]
    else [base, base ++ [GTok.lit '/', GTok.anyseq]]
  let cands :=
    tails ++ (if anchored then [] else
      tails.map (fun t => GTok.anychar :: GTok.anyseq :: GTok.lit '/' :: t))
  cands.any (fun ts => gmatch ts path.toList)

/-! ## Filter outcomes and compiled rules (shared by both revisions) -/

/-- `FilterOutcome` enum, identical in both revisions. -/
inductive FilterOutcome where
| FORCE_INCLUDE
| ADDITIVE_INCLUDE
| EXPLICIT_EXCLUDE
| DEFAULT_INCLUDE
deriving DecidableEq

/-- A compiled Stage-1 rule: `(pattern string, outcome, original rule line)`,
mirroring the Python tuple `(GitWildMatchPattern(pattern_str), outcome,
rule_line)`. -/
abbrev CompiledRule := String × FilterOutcome × String

/-- One step of the `get_stage_1_outcome` loop: a matching rule overwrites
the running `(winning_outcome, winning_rule)` pair. -/
def stage1Step (path : String) (acc : FilterOutcome × Option String)
    (r : CompiledRule) : FilterOutcome × Option String :=
  if matchFile r.1 path then (r.2.1, some r.2.2) else acc

/-! ## String helpers

Python's `str.strip`, `str.lower` and `str.startswith` are modelled on
`List Char` (the core-library `String` versions are byte-position based,
which the kernel does not evaluate well). -/

/-- The whitespace characters relevant to `str.strip` on rule lines. -/
def isSpaceChar (c : Char) : Bool :=
  c = ' ' || c = '\t' || c = '\n' || c = '\r'

/-- `str.strip`: drop whitespace from both ends. -/
def pstrip (cs : List Char) : List Char :=
  ((cs.dropWhile isSpaceChar).reverse.dropWhile isSpaceChar).reverse

/-- `str.strip` on a `String`. -/
def strStrip (s : String) : String := String.mk (pstrip s.toList)

/-- `str.lower` (ASCII, which covers extensions and rule lines here). -/
def strLower (s : String) : String := String.mk (s.toList.map Char.toLower)

/-- `str.startswith` with a single-character argument. -/
def strHeadIs (s : String) (c : Char) : Bool := s.toList.head? = some c

/-! ## os.path.splitext and the extension allow-list check -/

/-- Number of leading `.` characters of a basename (`os.path.splitext`
never treats leading dots as an extension separator). -/
def leadingDots : List Char → Nat
| '.' :: rest => leadingDots rest + 1
| _ => 0

/-- The suffix starting at the last `.` of a character list, if any. -/
def afterLastDot : List Char → Option (List Char)
| [] => none
| c :: rest =>
  match afterLastDot rest with
  | some s => some s
  | none => if c = '.' then some (c :: rest) else none

/-- `os.path.splitext(f)[1]` for a basename `f`: the suffix from the last
`.` that lies beyond the leading dots, else the empty string. -/
def splitextExt (f : String) : String :=
  let cs := f.toList
  match afterLastDot (cs.drop (leadingDots cs)) with
  | some s => String.mk s
  | none => ("")

/-- Stage 3 of `process_file` (both revisions): with no allow-list every
file passes; otherwise the lowercased extension must be non-empty and a
member of the allow-list. -/
def extMatches (exts : Option (List String)) (f : String) : Bool :=
  match exts with
  | none => true
  | some allowed =>
    let e := strLower (splitextExt f)
    if e = ("") then false else allowed.contains e

/-! ## Stage 2: the project-ignore spec -/

/-- The Stage-2 gate of `process_file` (both revisions): the project-ignore
spec is consulted exactly when Stage 1 produced `ADDITIVE_INCLUDE` or
`DEFAULT_INCLUDE` (`if stage_1_outcome in (FilterOutcome.ADDITIVE_INCLUDE,
FilterOutcome.DEFAULT_INCLUDE)`). -/
def stage2Evaluated : FilterOutcome → Bool
| FilterOutcome.ADDITIVE_INCLUDE => true
| FilterOutcome.DEFAULT_INCLUDE => true
| _ => false

/-- One line of a `pathspec.PathSpec` built with `from_lines('gitwildmatch',
...)`: a leading `!` un-ignores on match, otherwise a match ignores; the
last matching line wins. -/
def specLineMatch (path : String) (acc : Option Bool) (line : String) :
    Option Bool :=
  if strHeadIs line '!' then
    (if matchFile (String.mk (line.toList.drop 1)) path then some false else acc)
  else if matchFile line path then some true else acc

/-- `PathSpec.match_file`: ignored iff the last matching line is not a `!`
line; no match means not ignored. -/
def specMatch (lines : List String) (path : String) : Bool :=
  (lines.foldl (specLineMatch path) none).getD false

/-- `process_file` guards the Stage-2 check with `if stage_2_gitignore_spec`
(`None` means no .gitignore rules were loaded). -/
def specMatchOpt : Option (List String) → String → Bool
| none, _ => false
| some lines, path => specMatch lines path

/-! ## Walk state and per-file verdicts -/

/-- The observable decision `process_file` reaches for one file; the skip
constructors correspond one-to-one to the distinct debug log messages. -/
inductive Verdict where
| alreadyProcessed
| forcedInclude
| skippedExtForce
| skippedStage1
| skippedStage2
| skippedExt
| included
deriving DecidableEq

/-- Mutable walk state: the `processed_files` set (as a list), the three
`Stats` counters, and the output artifact abstracted as the list of header
paths written by `write_file_content`. -/
structure ProcState where
  processed : List String
  scanned : Nat
  included : Nat
  skipped : Nat
  output : List String
deriving DecidableEq

/-- The state at the start of a walk. -/
def initState : ProcState := ⟨[], 0, 0, 0, []⟩

/-- The inclusion effect of `process_file` (identical in both revisions):
bump `included`, and unless `--dry-run` write the content block and record
the path in `processed_files`. -/
def includeFile (fPath : String) (dryRun : Bool) (st : ProcState) :
    ProcState :=
  let st1 := { st with included := st.included + 1 }
  if dryRun then st1
  else { st1 with output := st1.output ++ [fPath],
                  processed := st1.processed ++ [fPath] }

end SourceDump

namespace Dump

open SourceDump

/-- `src/dump.py` lines 201-212: classify one raw rule line into the pattern
string and outcome.  `!`/`+`/`-` markers are stripped (and the remainder
stripped of whitespace, `rule_line[1:].strip()`); a bare pattern is
`EXPLICIT_EXCLUDE`. -/
def classify (line : String) : String × FilterOutcome :=
  if strHeadIs line '!' then
    (String.mk (pstrip (line.toList.drop 1)), FilterOutcome.FORCE_INCLUDE)
  else if strHeadIs line '+' then
    (String.mk (pstrip (line.toList.drop 1)), FilterOutcome.ADDITIVE_INCLUDE)
  else if strHeadIs line '-' then
    (String.mk (pstrip (line.toList.drop 1)), FilterOutcome.EXPLICIT_EXCLUDE)
  else (line, FilterOutcome.EXPLICIT_EXCLUDE)

/-- `src/dump.py` `compile_stage_1_rules` (lines 193-218).  The Python wraps
each rule in try/except and drops rules whose pattern `GitWildMatchPattern`
rejects; no pattern appearing in the claims is rejected, so compilation is
modelled as total. -/
def compileStage1Rules (rules : List String) : List CompiledRule :=
  rules.map (fun line => ((classify line).1, (classify line).2, line))

/-- `src/dump.py` `get_stage_1_outcome` (lines 220-234): fold over the rules
in declaration order starting from `(DEFAULT_INCLUDE, None)`; the last
matching rule wins. -/
def getStage1Outcome (path : String) (rules : List CompiledRule) :
    FilterOutcome × Option String :=
  rules.foldl (stage1Step path) (FilterOutcome.DEFAULT_INCLUDE, none)

/-- `src/dump.py` `load_rules_from_file` line loop (lines 112-116): strip
each line, keep non-empty lines that do not start with `#`. -/
def loadRulesLines (lines : List String) : List String :=
  lines.filterMap (fun line =>
    let l := strStrip line
    if l = ("") then none else if strHeadIs l '#' then none else some l)

/-- `src/dump.py` `load_rules_from_file` (lines 103-120).  `none` stands for
a missing (`not os.path.isfile`) or unreadable (exception, warned) file; in
both cases the function returns an empty rule list and the run continues,
which the total return type records. -/
def loadRulesFromFile : Option (List String) → List String
| none => []
| some lines => loadRulesLines lines

/-- `src/dump.py` `load_allowed_extensions` (lines 162-189).  The outer
`Option` is the `--exts` argument (`None` → no restriction); the inner
`Option` is the file: `none` means `FileNotFoundError`, on which the code
calls `sys.exit(1)` — modelled as `Except.error 1`.  Entries are stripped,
lowercased, given a leading dot, and collected (the Python `set` is
modelled as a list); if nothing remains, the code warns and returns `None`
(no restriction). -/
def loadAllowedExtensions : Option (Option (List String)) →
    Except Nat (Option (List String))
| none => Except.ok none
| some none => Except.error 1
| some (some lines) =>
  let exts := lines.foldl (fun acc line =>
    let l := strLower (strStrip line)
    if l = ("") then acc
    else if strHeadIs l '#' then acc
    else if strHeadIs l '.' then acc ++ [l]
    else acc ++ [String.mk ('.' :: l.toList)]) []
  if exts = [] then Except.ok none else Except.ok (some exts)

/-- The decision tree of `src/dump.py` `process_file` (lines 288-388),
evaluated in source order: the already-processed guard, then FORCE_INCLUDE
(gated by the extension filter, lines 328-343), EXPLICIT_EXCLUDE, the
Stage-2 ignore, the extension filter, and finally inclusion. -/
def fileVerdict (f fPath : String) (rules : List CompiledRule)
    (spec : Option (List String)) (exts : Option (List String))
    (processed : List String) : Verdict :=
  if fPath ∈ processed then Verdict.alreadyProcessed else
  let o := (getStage1Outcome fPath rules).1
  let ignored2 := stage2Evaluated o && specMatchOpt spec fPath
  let extOk := extMatches exts f
  if o = FilterOutcome.FORCE_INCLUDE then
    (if extOk then Verdict.forcedInclude else Verdict.skippedExtForce)
  else if o = FilterOutcome.EXPLICIT_EXCLUDE then Verdict.skippedStage1
  else if ignored2 then Verdict.skippedStage2
  else if extOk then Verdict.included
  else Verdict.skippedExt

/-- `src/dump.py` `process_file` as a state transformer, also returning the
verdict it logged.  `scanned` is bumped before the already-processed guard,
exactly as in the source. -/
def processFile (f fPath : String) (rules : List CompiledRule)
    (spec : Option (List String)) (exts : Option (List String))
    (dryRun : Bool) (st : ProcState) : ProcState × Verdict :=
  let st1 := { st with scanned := st.scanned + 1 }
  match fileVerdict f fPath rules spec exts st.processed with
  | Verdict.alreadyProcessed => (st1, Verdict.alreadyProcessed)
  | Verdict.forcedInclude => (includeFile fPath dryRun st1, Verdict.forcedInclude)
  | Verdict.included => (includeFile fPath dryRun st1, Verdict.included)
  | v => ({ st1 with skipped := st1.skipped + 1 }, v)

/-! ### The hierarchical walker (`walk_and_process_hierarchical`) -/

/-- An in-memory directory tree: name, the lines of a local `.dumpignore`
file when one exists, immediate files, and subdirectories. -/
inductive FSTree where
| node (name : String) (dumpignore : Option (List String))
    (files : List String) (subs : List FSTree)

/-- The name of a tree's root directory. -/
def FSTree.name : FSTree → String
| FSTree.node n _ _ _ => n

/-- Observable traversal events: a pruned directory, or a file decided with
a verdict. -/
inductive WalkEvent where
| pruned (dPath : String)
| file (fPath : String) (v : Verdict)
deriving DecidableEq

/-- The pruning test of `walk_and_process_hierarchical` (lines 505-519): a
directory is pruned exactly when its own Stage-1 outcome is
`EXPLICIT_EXCLUDE`; the Stage-2 spec is not consulted. -/
def prunes (dPath : String) (rules : List CompiledRule) : Bool :=
  decide ((getStage1Outcome dPath rules).1 = FilterOutcome.EXPLICIT_EXCLUDE)

/-- Lines 486-493: the raw rule list for a directory is the parent's list,
extended with the directory's own `.dumpignore` rules when that file exists
and contributes at least one rule. -/
def childRaw (parentRaw : List String) : Option (List String) → List String
| none => parentRaw
| some lines =>
  let newRules := loadRulesLines lines
  if newRules = [] then parentRaw else parentRaw ++ newRules

/-- The file loop of the walker (lines 522-528): process every immediate
file left to right, threading the walk state. -/
def processFiles (rules : List CompiledRule) (spec : Option (List String))
    (exts : Option (List String)) (dryRun : Bool) (rel : String) :
    List String → ProcState → ProcState × List WalkEvent
| [], st => (st, [])
| f :: fs, st =>
  let r := processFile f (rel ++ f) rules spec exts dryRun st
  let rest := processFiles rules spec exts dryRun rel fs r.1
  (rest.1, WalkEvent.file (rel ++ f) r.2 :: rest.2)

/-- `walk_and_process_hierarchical` (lines 447-528) on an in-memory tree.
`rel` is the directory's path relative to the scan root with a trailing
slash (empty at the root), matching `rel_root` handling at lines 500-503.
Per directory, in source order: extend the inherited raw rules with the
local `.dumpignore` and recompile (lines 482-497; the per-directory cache
keyed on `root`/`parent_dir` is realised by passing the parent's rules into
the recursion, which `os.walk`'s top-down order guarantees), prune immediate
subdirectories whose own Stage-1 outcome is `EXPLICIT_EXCLUDE` (counting
them as scanned and skipped), process immediate files, then descend into
the kept subdirectories.  The fuel argument only drives the recursion:
every level consumes one unit, so any fuel exceeding the tree's depth
computes the full walk; theorems below quantify over the fuel. -/
def walkTreeF (spec : Option (List String)) (exts : Option (List String))
    (dryRun : Bool) : Nat → FSTree → String → List String → ProcState →
    ProcState × List WalkEvent
| 0, _, _, _, st => (st, [])
| fuel + 1, FSTree.node _ di files subs, rel, raw, st =>
  let raw' := childRaw raw di
  let compiled := compileStage1Rules raw'
  let prunedSubs := subs.filter (fun s => prunes (rel ++ s.name ++ "/") compiled)
  let keptSubs := subs.filter (fun s => !(prunes (rel ++ s.name ++ "/") compiled))
  let st1 := { st with scanned := st.scanned + prunedSubs.length,
                       skipped := st.skipped + prunedSubs.length }
  let prunedEvs := prunedSubs.map (fun s => WalkEvent.pruned (rel ++ s.name ++ "/"))
  let r2 := processFiles compiled spec exts dryRun rel files st1
  let r3 := keptSubs.foldl
    (fun acc s =>
      let r := walkTreeF spec exts dryRun fuel s (rel ++ s.name ++ "/") raw' acc.1
      (r.1, acc.2 ++ r.2)) (r2.1, ([] : List WalkEvent))
  (r3.1, prunedEvs ++ r2.2 ++ r3.2)

/-- Scenario tree for the directory-pruning/force-include interaction: the
root `.dumpignore` excludes `build/` and force-includes `build/keep.txt`,
and `build/` holds `keep.txt` and `other.txt`. -/
def buildTree : FSTree :=
  FSTree.node (".") (some [("build/"), ("!build/keep.txt")]) []
    [FSTree.node ("build") none [("keep.txt"), ("other.txt")] []]

/-- Scenario tree for rule inheritance: the root `.dumpignore` excludes
`*.md` and the subdirectory `docs` additively re-includes `+*.md`. -/
def mdTree : FSTree :=
  FSTree.node (".") (some [("*.md")]) [("a.md")]
    [FSTree.node ("docs") (some [("+*.md")]) [("b.md")] []]

/-- A one-file tree, walked twice to model two overlapping input roots
sharing one `processed_files` set. -/
def overlapTree : FSTree := FSTree.node (".") none [("a.py")] []

end Dump

namespace SourceDump

/-- At most one output block per path: each path occurs in the output at
most once, and only if it has been recorded in `processed_files`. -/
def OutputBound (st : ProcState) : Prop :=
  ∀ p : String, st.output.count p ≤ (if p ∈ st.processed then 1 else 0)

end SourceDump

namespace CodeDump

open SourceDump

/-- `src/CodeDump/dump.py` lines 233-244: same markers, but a bare pattern
is classified `ADDITIVE_INCLUDE` ("Default to Additive for patterns"). -/
def classify (line : String) : String × FilterOutcome :=
  if strHeadIs line '!' then
    (String.mk (pstrip (line.toList.drop 1)), FilterOutcome.FORCE_INCLUDE)
  else if strHeadIs line '+' then
    (String.mk (pstrip (line.toList.drop 1)), FilterOutcome.ADDITIVE_INCLUDE)
  else if strHeadIs line '-' then
    (String.mk (pstrip (line.toList.drop 1)), FilterOutcome.EXPLICIT_EXCLUDE)
  else (line, FilterOutcome.ADDITIVE_INCLUDE)

/-- `src/CodeDump/dump.py` `compile_stage_1_rules` (lines 228-250), modelled
as total for the same reason as `Dump.compileStage1Rules`. -/
def compileStage1Rules (rules : List String) : List CompiledRule :=
  rules.map (fun line => ((classify line).1, (classify line).2, line))

/-- `src/CodeDump/dump.py` `get_stage_1_outcome` (lines 252-266): identical
fold, but when the compiled rule list is non-empty the starting value is
`EXPLICIT_EXCLUDE` ("If explicit rules exist, default switches to
EXPLICIT_EXCLUDE unless matched"). -/
def getStage1Outcome (path : String) (rules : List CompiledRule) :
    FilterOutcome × Option String :=
  rules.foldl (stage1Step path)
    (if rules.isEmpty then (FilterOutcome.DEFAULT_INCLUDE, none)
     else (FilterOutcome.EXPLICIT_EXCLUDE, none))

/-- The decision tree of `src/CodeDump/dump.py` `process_file` (lines
337-418).  Unlike `Dump.fileVerdict`, the FORCE_INCLUDE branch (lines
375-387) includes unconditionally — the extension filter is not consulted.
`ignoreCheck` abstracts `check_nested_gitignore` applied to the hierarchy
of gitignore specs (lines 268-286); only its guard placement matters here,
and it is guarded by the same `stage2Evaluated` gate (line 360). -/
def fileVerdict (f fPath : String) (rules : List CompiledRule)
    (ignoreCheck : String → Bool) (exts : Option (List String))
    (processed : List String) : Verdict :=
  if fPath ∈ processed then Verdict.alreadyProcessed else
  let o := (getStage1Outcome fPath rules).1
  let ignored2 := stage2Evaluated o && ignoreCheck fPath
  let extOk := extMatches exts f
  if o = FilterOutcome.FORCE_INCLUDE then Verdict.forcedInclude
  else if o = FilterOutcome.EXPLICIT_EXCLUDE then Verdict.skippedStage1
  else if ignored2 then Verdict.skippedStage2
  else if extOk then Verdict.included
  else Verdict.skippedExt

/-- `src/CodeDump/dump.py` `process_file` as a state transformer (same
write/record effects as `Dump.processFile`, but a forced include writes even
on an extension mismatch). -/
def processFile (f fPath : String) (rules : List CompiledRule)
    (ignoreCheck : String → Bool) (exts : Option (List String))
    (dryRun : Bool) (st : ProcState) : ProcState × Verdict :=
  let st1 := { st with scanned := st.scanned + 1 }
  match fileVerdict f fPath rules ignoreCheck exts st.processed with
  | Verdict.alreadyProcessed => (st1, Verdict.alreadyProcessed)
  | Verdict.forcedInclude => (includeFile fPath dryRun st1, Verdict.forcedInclude)
  | Verdict.included => (includeFile fPath dryRun st1, Verdict.included)
  | v => ({ st1 with skipped := st1.skipped + 1 }, v)

end CodeDump

namespace SourceDump

/-! ## Helper lemmas about the Stage-1 fold -/

/-- Folding `stage1Step` over rules none of which match leaves the
accumulator unchanged. -/
theorem stage1_foldl_nomatch (path : String) :
    ∀ (rules : List CompiledRule) (acc : FilterOutcome × Option String),
      (∀ r ∈ rules, matchFile r.1 path = false) →
      rules.foldl (stage1Step path) acc = acc := by
  intro rules
  induction rules with
  | nil => intro acc _; rfl
  | cons r rs ih =>
    intro acc h
    have hr : matchFile r.1 path = false := h r (by simp)
    have hs : ∀ r' ∈ rs, matchFile r'.1 path = false := by
      intro r' hr'
      exact h r' (List.mem_cons_of_mem _ hr')
    rw [List.foldl_cons]
    have hstep : stage1Step path acc r = acc := by
      simp [stage1Step, hr]
    rw [hstep]
    exact ih acc hs

/-- The fold of `stage1Step` over `pre ++ r :: suf` returns `r`'s outcome
and rule line whenever `r` matches and nothing after it does, for any
starting accumulator. -/
theorem stage1_foldl_last (path : String) (pre suf : List CompiledRule)
    (r : CompiledRule) (acc : FilterOutcome × Option String)
    (hm : matchFile r.1 path = true)
    (hs : ∀ r' ∈ suf, matchFile r'.1 path = false) :
    (pre ++ r :: suf).foldl (stage1Step path) acc = (r.2.1, some r.2.2) := by
  rw [List.foldl_append, List.foldl_cons]
  have hstep : stage1Step path (pre.foldl (stage1Step path) acc) r
      = (r.2.1, some r.2.2) := by
    simp [stage1Step, hm]
  rw [hstep]
  exact stage1_foldl_nomatch path suf _ hs

end SourceDump

namespace SourceDump

/-! ## Claims -/

/-- C1: for every path and compiled rule list, `get_stage_1_outcome` (both
revisions) returns exactly the outcome of the last rule in declaration
order whose pattern matches the path; in particular, under the rules
`[*.log: EXCLUDE, debug.log: FORCE_INCLUDE]` the path `debug.log` resolves
to `FORCE_INCLUDE` and `app.log` to `EXPLICIT_EXCLUDE`. -/
theorem C1_stage1_last_match_wins :
    (∀ (path : String) (pre suf : List CompiledRule) (r : CompiledRule),
        matchFile r.1 path = true →
        (∀ r' ∈ suf, matchFile r'.1 path = false) →
        Dump.getStage1Outcome path (pre ++ r :: suf) = (r.2.1, some r.2.2)
        ∧ CodeDump.getStage1Outcome path (pre ++ r :: suf) = (r.2.1, some r.2.2))
    ∧ Dump.getStage1Outcome ("debug.log")
        (Dump.compileStage1Rules [("*.log"), ("!debug.log")])
      = (FilterOutcome.FORCE_INCLUDE, some ("!debug.log"))
    ∧ Dump.getStage1Outcome ("app.log")
        (Dump.compileStage1Rules [("*.log"), ("!debug.log")])
      = (FilterOutcome.EXPLICIT_EXCLUDE, some ("*.log")) := by
  refine ⟨?_, by decide, by decide⟩
  intro path pre suf r hm hs
  constructor
  · exact stage1_foldl_last path pre suf r _ hm hs
  · exact stage1_foldl_last path pre suf r _ hm hs

/-- Witness for C1: the general last-match property instantiated at the
claim's own example. -/
theorem C1_stage1_last_match_wins_witness :
    Dump.getStage1Outcome ("app.log")
      [(("*.log"), FilterOutcome.EXPLICIT_EXCLUDE, ("*.log")),
       (("debug.log"), FilterOutcome.FORCE_INCLUDE, ("!debug.log"))]
    = (FilterOutcome.EXPLICIT_EXCLUDE, some ("*.log")) :=
  (C1_stage1_last_match_wins.1 ("app.log") []
    [(("debug.log"), FilterOutcome.FORCE_INCLUDE, ("!debug.log"))]
    (("*.log"), FilterOutcome.EXPLICIT_EXCLUDE, ("*.log"))
    (by decide) (by decide)).1

/-- C2 (amended): when no rule matches, `src/dump.py`'s
`get_stage_1_outcome` returns `DEFAULT_INCLUDE` regardless of how many
rules were supplied and of the operating mode, while
`src/CodeDump/dump.py`'s returns `EXPLICIT_EXCLUDE` whenever the compiled
rule list is non-empty, in both modes (both walkers of each revision call
the same `get_stage_1_outcome`, which takes no mode argument). -/
theorem C2_no_match_baseline :
    (∀ (path : String) (rules : List CompiledRule),
        (∀ r ∈ rules, matchFile r.1 path = false) →
        Dump.getStage1Outcome path rules = (FilterOutcome.DEFAULT_INCLUDE, none))
    ∧ (∀ (path : String) (rules : List CompiledRule), rules ≠ [] →
        (∀ r ∈ rules, matchFile r.1 path = false) →
        CodeDump.getStage1Outcome path rules
          = (FilterOutcome.EXPLICIT_EXCLUDE, none)) := by
  constructor
  · intro path rules h
    exact stage1_foldl_nomatch path rules _ h
  · intro path rules hne h
    unfold CodeDump.getStage1Outcome
    rw [stage1_foldl_nomatch path rules _ h]
    simp [List.isEmpty_iff, hne]

/-- Witness for C2: both amended behaviors at the rule list `[*.log]` and
the unmatched path `a.py`. -/
theorem C2_no_match_baseline_witness :
    Dump.getStage1Outcome ("a.py") (Dump.compileStage1Rules [("*.log")])
      = (FilterOutcome.DEFAULT_INCLUDE, none)
    ∧ CodeDump.getStage1Outcome ("a.py") (CodeDump.compileStage1Rules [("*.log")])
      = (FilterOutcome.EXPLICIT_EXCLUDE, none) :=
  ⟨C2_no_match_baseline.1 ("a.py") _ (by decide),
   C2_no_match_baseline.2 ("a.py") _ (by decide) (by decide)⟩

/-- Counterexample for C2 as stated: in `src/dump.py` (whose explicit
filter mode evaluates Stage 1 with this very function), a non-empty rule
list `[*.log]` which does not match `a.py` yields `DEFAULT_INCLUDE`, not
the claimed `EXPLICIT_EXCLUDE`; conversely `src/CodeDump/dump.py` yields
`EXPLICIT_EXCLUDE` for the same input even though its hierarchical walker
uses the same function, contradicting the claimed hierarchical
`DEFAULT_INCLUDE` baseline. -/
theorem C2_no_match_baseline_counterexample :
    matchFile ("*.log") ("a.py") = false
    ∧ Dump.compileStage1Rules [("*.log")] ≠ []
    ∧ Dump.getStage1Outcome ("a.py") (Dump.compileStage1Rules [("*.log")])
        = (FilterOutcome.DEFAULT_INCLUDE, none)
    ∧ FilterOutcome.DEFAULT_INCLUDE ≠ FilterOutcome.EXPLICIT_EXCLUDE
    ∧ CodeDump.getStage1Outcome ("a.py") (CodeDump.compileStage1Rules [("*.log")])
        = (FilterOutcome.EXPLICIT_EXCLUDE, none)
    ∧ FilterOutcome.EXPLICIT_EXCLUDE ≠ FilterOutcome.DEFAULT_INCLUDE := by
  decide

/-- C3 (amended): a rule line with no leading `!`, `+` or `-` is compiled
with outcome `EXPLICIT_EXCLUDE` by `src/dump.py`'s `compile_stage_1_rules`,
but with outcome `ADDITIVE_INCLUDE` by `src/CodeDump/dump.py`'s. -/
theorem C3_bare_pattern_outcome :
    ∀ line : String,
      strHeadIs line '!' = false → strHeadIs line '+' = false →
      strHeadIs line '-' = false →
      Dump.compileStage1Rules [line]
        = [(line, FilterOutcome.EXPLICIT_EXCLUDE, line)]
      ∧ CodeDump.compileStage1Rules [line]
        = [(line, FilterOutcome.ADDITIVE_INCLUDE, line)] := by
  intro line h1 h2 h3
  constructor
  · simp [Dump.compileStage1Rules, Dump.classify, h1, h2, h3]
  · simp [CodeDump.compileStage1Rules, CodeDump.classify, h1, h2, h3]

/-- Witness for C3: the bare pattern `foo`. -/
theorem C3_bare_pattern_outcome_witness :
    Dump.compileStage1Rules [("foo")]
      = [(("foo"), FilterOutcome.EXPLICIT_EXCLUDE, ("foo"))]
    ∧ CodeDump.compileStage1Rules [("foo")]
      = [(("foo"), FilterOutcome.ADDITIVE_INCLUDE, ("foo"))] :=
  C3_bare_pattern_outcome ("foo") (by decide) (by decide) (by decide)

/-- Counterexample for C3 as stated: `src/CodeDump/dump.py`'s
`compile_stage_1_rules` classifies the unprefixed rule line `foo` as
`ADDITIVE_INCLUDE`, not `EXPLICIT_EXCLUDE`. -/
theorem C3_bare_pattern_outcome_counterexample :
    strHeadIs ("foo") '!' = false ∧ strHeadIs ("foo") '+' = false
    ∧ strHeadIs ("foo") '-' = false
    ∧ CodeDump.compileStage1Rules [("foo")]
        = [(("foo"), FilterOutcome.ADDITIVE_INCLUDE, ("foo"))]
    ∧ FilterOutcome.ADDITIVE_INCLUDE ≠ FilterOutcome.EXPLICIT_EXCLUDE := by
  decide

/-- C8: a missing explicitly-specified extension allow-list file makes
`load_allowed_extensions` call `sys.exit(1)` (a non-zero exit), while a
missing or unreadable rule/ignore file makes `load_rules_from_file` return
an empty rule list and the run continue. -/
theorem C8_exts_file_fatal_rules_file_nonfatal :
    Dump.loadAllowedExtensions (some none) = Except.error 1
    ∧ (1 : Nat) ≠ 0
    ∧ Dump.loadRulesFromFile none = [] :=
  ⟨rfl, by decide, rfl⟩

/-- C10: an extension allow-list file whose every line is blank or a `#`
comment after stripping yields no restriction at all (`None`, every
extension allowed), not an empty allow-list — which, as the last two
conjuncts show, would have excluded every file. -/
theorem C10_empty_exts_file_means_no_restriction :
    (∀ lines : List String,
        (∀ l ∈ lines, strLower (strStrip l) = ("") ∨
          strHeadIs (strLower (strStrip l)) '#' = true) →
        Dump.loadAllowedExtensions (some (some lines)) = Except.ok none)
    ∧ (∀ f : String, extMatches none f = true)
    ∧ (∀ f : String, extMatches (some []) f = false) := by
  refine ⟨?_, fun f => rfl, ?_⟩
  · intro lines h
    simp only [Dump.loadAllowedExtensions]
    have hfold : ∀ (ls : List String), (∀ l ∈ ls, strLower (strStrip l) = ("") ∨
        strHeadIs (strLower (strStrip l)) '#' = true) →
        ls.foldl (fun acc line =>
          let l := strLower (strStrip line)
          if l = ("") then acc
          else if strHeadIs l '#' then acc
          else if strHeadIs l '.' then acc ++ [l]
          else acc ++ [String.mk ('.' :: l.toList)]) ([] : List String) = [] := by
      intro ls hls
      have hgen : ∀ (ls' : List String) (acc : List String),
          (∀ l ∈ ls', strLower (strStrip l) = ("") ∨
            strHeadIs (strLower (strStrip l)) '#' = true) →
          ls'.foldl (fun acc line =>
            let l := strLower (strStrip line)
            if l = ("") then acc
            else if strHeadIs l '#' then acc
            else if strHeadIs l '.' then acc ++ [l]
            else acc ++ [String.mk ('.' :: l.toList)]) acc = acc := by
        intro ls'
        induction ls' with
        | nil => intro acc _; rfl
        | cons l ls'' ih =>
          intro acc h'
          rw [List.foldl_cons]
          have hl := h' l (by simp)
          have hstep : (let x := strLower (strStrip l)
              if x = ("") then acc
              else if strHeadIs x '#' then acc
              else if strHeadIs x '.' then acc ++ [x]
              else acc ++ [String.mk ('.' :: x.toList)]) = acc := by
            rcases hl with hl | hl
            · simp [hl]
            · by_cases he : strLower (strStrip l) = ("")
              · simp [he]
              · simp [he, hl]
          rw [hstep]
          exact ih acc (fun l' hl' => h' l' (List.mem_cons_of_mem _ hl'))
      exact hgen ls [] hls
    rw [hfold lines h]
    rfl
  · intro f
    unfold extMatches
    by_cases he : strLower (splitextExt f) = ("")
    · simp [he]
    · simp [he]

/-- Witness for C10: a file with one empty line, one comment line and one
whitespace line gives `None`, i.e. all extensions allowed. -/
theorem C10_empty_exts_file_means_no_restriction_witness :
    Dump.loadAllowedExtensions (some (some [(""), ("# comment"), ("   ")]))
      = Except.ok none :=
  C10_empty_exts_file_means_no_restriction.1 [(""), ("# comment"), ("   ")]
    (by decide)

end SourceDump

namespace SourceDump

/-- If the `process_file` decision tree of `src/dump.py` sees a Stage-1
outcome for which the Stage-2 gate is closed, the project-ignore spec is
irrelevant to the verdict. -/
theorem fileVerdict_spec_irrelevant (f fPath : String)
    (rules : List CompiledRule) (exts : Option (List String))
    (processed : List String) (spec spec' : Option (List String))
    (h : stage2Evaluated (Dump.getStage1Outcome fPath rules).1 = false) :
    Dump.fileVerdict f fPath rules spec exts processed
      = Dump.fileVerdict f fPath rules spec' exts processed := by
  unfold Dump.fileVerdict
  by_cases hm : fPath ∈ processed
  · simp [hm]
  · simp only [hm, if_false, h, Bool.false_and]

/-- The same irrelevance fact for `src/CodeDump/dump.py`, whose Stage-2
check is the `check_nested_gitignore` call abstracted as `chk`. -/
theorem fileVerdict_chk_irrelevant (f fPath : String)
    (rules : List CompiledRule) (exts : Option (List String))
    (processed : List String) (chk chk' : String → Bool)
    (h : stage2Evaluated (CodeDump.getStage1Outcome fPath rules).1 = false) :
    CodeDump.fileVerdict f fPath rules chk exts processed
      = CodeDump.fileVerdict f fPath rules chk' exts processed := by
  unfold CodeDump.fileVerdict
  by_cases hm : fPath ∈ processed
  · simp [hm]
  · simp only [hm, if_false, h, Bool.false_and]

/-- C4: in `process_file` (both revisions), the Stage-2 project-ignore
check is gated on the Stage-1 outcome being `ADDITIVE_INCLUDE` or
`DEFAULT_INCLUDE`; for `FORCE_INCLUDE` (and `EXPLICIT_EXCLUDE`) the whole
result is independent of the project-ignore spec, and in the concrete
scenario with project-ignore `secrets/` and rule `!secrets/readme.txt`,
`secrets/readme.txt` is written while `secrets/key.pem` is skipped by
Stage 2. -/
theorem C4_stage2_gating_force_bypass :
    (∀ o : FilterOutcome, stage2Evaluated o = true ↔
        (o = FilterOutcome.ADDITIVE_INCLUDE ∨ o = FilterOutcome.DEFAULT_INCLUDE))
    ∧ (∀ (f fPath : String) (rules : List CompiledRule)
          (exts : Option (List String)) (dryRun : Bool) (st : ProcState)
          (spec spec' : Option (List String)),
        ((Dump.getStage1Outcome fPath rules).1 = FilterOutcome.FORCE_INCLUDE ∨
         (Dump.getStage1Outcome fPath rules).1 = FilterOutcome.EXPLICIT_EXCLUDE) →
        Dump.processFile f fPath rules spec exts dryRun st
          = Dump.processFile f fPath rules spec' exts dryRun st)
    ∧ (∀ (f fPath : String) (rules : List CompiledRule)
          (exts : Option (List String)) (dryRun : Bool) (st : ProcState)
          (chk chk' : String → Bool),
        ((CodeDump.getStage1Outcome fPath rules).1 = FilterOutcome.FORCE_INCLUDE ∨
         (CodeDump.getStage1Outcome fPath rules).1 = FilterOutcome.EXPLICIT_EXCLUDE) →
        CodeDump.processFile f fPath rules chk exts dryRun st
          = CodeDump.processFile f fPath rules chk' exts dryRun st)
    ∧ (Dump.processFile ("readme.txt") ("secrets/readme.txt")
        (Dump.compileStage1Rules [("!secrets/readme.txt")])
        (some [("secrets/")]) none false initState)
      = ({ processed := [("secrets/readme.txt")], scanned := 1, included := 1,
           skipped := 0, output := [("secrets/readme.txt")] },
         Verdict.forcedInclude)
    ∧ (Dump.processFile ("key.pem") ("secrets/key.pem")
        (Dump.compileStage1Rules [("!secrets/readme.txt")])
        (some [("secrets/")]) none false initState)
      = ({ processed := [], scanned := 1, included := 0, skipped := 1,
           output := [] },
         Verdict.skippedStage2) := by
  refine ⟨?_, ?_, ?_, by decide, by decide⟩
  · intro o
    cases o <;> simp [stage2Evaluated]
  · intro f fPath rules exts dryRun st spec spec' h
    have hgate : stage2Evaluated (Dump.getStage1Outcome fPath rules).1 = false := by
      rcases h with h | h <;> rw [h] <;> rfl
    unfold Dump.processFile
    rw [fileVerdict_spec_irrelevant f fPath rules exts st.processed spec spec' hgate]
  · intro f fPath rules exts dryRun st chk chk' h
    have hgate : stage2Evaluated (CodeDump.getStage1Outcome fPath rules).1 = false := by
      rcases h with h | h <;> rw [h] <;> rfl
    unfold CodeDump.processFile
    rw [fileVerdict_chk_irrelevant f fPath rules exts st.processed chk chk' hgate]

/-- Witness for C4: the spec-independence conjunct at the scenario's
force-included file, comparing the `secrets/` spec with no spec at all. -/
theorem C4_stage2_gating_force_bypass_witness :
    Dump.processFile ("readme.txt") ("secrets/readme.txt")
        (Dump.compileStage1Rules [("!secrets/readme.txt")])
        (some [("secrets/")]) none false initState
      = Dump.processFile ("readme.txt") ("secrets/readme.txt")
        (Dump.compileStage1Rules [("!secrets/readme.txt")])
        none none false initState :=
  C4_stage2_gating_force_bypass.2.1 ("readme.txt") ("secrets/readme.txt")
    (Dump.compileStage1Rules [("!secrets/readme.txt")]) none false initState
    (some [("secrets/")]) none (Or.inl (by decide))

/-- C5 (amended): in `src/dump.py`'s hierarchical walker a directory is
pruned exactly when its own Stage-1 outcome is `EXPLICIT_EXCLUDE` (the
pruning test consults no Stage-2 spec); consequently, with `build/`
explicitly excluded and `!build/keep.txt` force-included, `build/` IS
pruned, so `build/keep.txt` is never reached and nothing is written. -/
theorem C5_pruning_on_own_outcome :
    (∀ (dPath : String) (rules : List CompiledRule),
        Dump.prunes dPath rules = true ↔
        (Dump.getStage1Outcome dPath rules).1 = FilterOutcome.EXPLICIT_EXCLUDE)
    ∧ (Dump.walkTreeF none none false 5 Dump.buildTree ("") [] initState).2
        = [Dump.WalkEvent.pruned ("build/")]
    ∧ (Dump.walkTreeF none none false 5 Dump.buildTree ("") [] initState).1.output
        = [] := by
  refine ⟨?_, by decide, by decide⟩
  intro dPath rules
  simp [Dump.prunes]

/-- Counterexample for C5 as stated: the claim's scenario (root rules
`build/` and `!build/keep.txt`) run through the hierarchical walker of
`src/dump.py` prunes `build/` — its own Stage-1 outcome is
`EXPLICIT_EXCLUDE` — so `build/keep.txt` is never decided, let alone
included: the only traversal event is the pruning, and the output is
empty. -/
theorem C5_pruning_on_own_outcome_counterexample :
    Dump.prunes ("build/")
        (Dump.compileStage1Rules [("build/"), ("!build/keep.txt")]) = true
    ∧ (Dump.walkTreeF none none false 5 Dump.buildTree ("") [] initState).2
        = [Dump.WalkEvent.pruned ("build/")]
    ∧ (Dump.walkTreeF none none false 5 Dump.buildTree ("") [] initState).1.processed
        = [] := by
  decide

/-- C6: in the hierarchical walker, a directory with a local `.dumpignore`
uses the parent scope's raw rules with the local rules appended, and the
compiled store is the parent's compiled store followed by the compiled
local rules; by last-match-wins the child rule `+*.md` overrides the
parent's `*.md` exclusion for files it matches, while `.md` files seen
only under the parent store stay excluded — as the walk over `mdTree`
shows. -/
theorem C6_child_store_extends_parent :
    (∀ (parentRaw lines : List String), Dump.loadRulesLines lines ≠ [] →
        Dump.childRaw parentRaw (some lines)
          = parentRaw ++ Dump.loadRulesLines lines
        ∧ Dump.compileStage1Rules (Dump.childRaw parentRaw (some lines))
          = Dump.compileStage1Rules parentRaw
            ++ Dump.compileStage1Rules (Dump.loadRulesLines lines))
    ∧ Dump.getStage1Outcome ("docs/b.md")
        (Dump.compileStage1Rules ([("*.md")] ++ [("+*.md")]))
      = (FilterOutcome.ADDITIVE_INCLUDE, some ("+*.md"))
    ∧ Dump.getStage1Outcome ("a.md") (Dump.compileStage1Rules [("*.md")])
      = (FilterOutcome.EXPLICIT_EXCLUDE, some ("*.md"))
    ∧ (Dump.walkTreeF none none false 5 Dump.mdTree ("") [] initState).2
      = [Dump.WalkEvent.file ("a.md") Verdict.skippedStage1,
         Dump.WalkEvent.file ("docs/b.md") Verdict.included] := by
  refine ⟨?_, by decide, by decide, by decide⟩
  intro parentRaw lines h
  have hraw : Dump.childRaw parentRaw (some lines)
      = parentRaw ++ Dump.loadRulesLines lines := by
    unfold Dump.childRaw
    simp [h]
  refine ⟨hraw, ?_⟩
  rw [hraw]
  unfold Dump.compileStage1Rules
  exact List.map_append _ _ _

/-- Witness for C6: the concatenation property at parent rules `[*.md]`
and local `.dumpignore` lines `[+*.md]`. -/
theorem C6_child_store_extends_parent_witness :
    Dump.compileStage1Rules (Dump.childRaw [("*.md")] (some [("+*.md")]))
      = Dump.compileStage1Rules [("*.md")]
        ++ Dump.compileStage1Rules (Dump.loadRulesLines [("+*.md")]) :=
  (C6_child_store_extends_parent.1 [("*.md")] [("+*.md")] (by decide)).2

/-- C7 (amended): in `src/dump.py`, a force-included file whose extension
is not in the configured allow-list is soft-skipped — content not written,
walk state otherwise untouched — under the verdict `skippedExtForce`,
distinct from the plain Stage-1/Stage-2/extension skip verdicts; in
`src/CodeDump/dump.py`, however, FORCE_INCLUDE bypasses the extension
filter and the file's content IS written. -/
theorem C7_force_include_extension_mismatch :
    (∀ (f fPath : String) (rules : List CompiledRule)
        (spec : Option (List String)) (exts : Option (List String))
        (dryRun : Bool) (st : ProcState),
        fPath ∉ st.processed →
        (Dump.getStage1Outcome fPath rules).1 = FilterOutcome.FORCE_INCLUDE →
        extMatches exts f = false →
        Dump.processFile f fPath rules spec exts dryRun st
          = ({ st with scanned := st.scanned + 1, skipped := st.skipped + 1 },
             Verdict.skippedExtForce))
    ∧ Verdict.skippedExtForce ≠ Verdict.skippedStage1
    ∧ Verdict.skippedExtForce ≠ Verdict.skippedStage2
    ∧ Verdict.skippedExtForce ≠ Verdict.skippedExt
    ∧ (∀ (f fPath : String) (rules : List CompiledRule)
        (ignoreCheck : String → Bool) (exts : Option (List String))
        (st : ProcState),
        fPath ∉ st.processed →
        (CodeDump.getStage1Outcome fPath rules).1 = FilterOutcome.FORCE_INCLUDE →
        CodeDump.processFile f fPath rules ignoreCheck exts false st
          = ({ st with
                scanned := st.scanned + 1, included := st.included + 1,
                output := st.output ++ [fPath],
                processed := st.processed ++ [fPath] },
             Verdict.forcedInclude)) := by
  refine ⟨?_, by decide, by decide, by decide, ?_⟩
  · intro f fPath rules spec exts dryRun st hmem h1 hext
    have hv : Dump.fileVerdict f fPath rules spec exts st.processed
        = Verdict.skippedExtForce := by
      unfold Dump.fileVerdict
      simp [hmem, h1, hext]
    unfold Dump.processFile
    rw [hv]
  · intro f fPath rules ignoreCheck exts st hmem h1
    have hv : CodeDump.fileVerdict f fPath rules ignoreCheck exts st.processed
        = Verdict.forcedInclude := by
      unfold CodeDump.fileVerdict
      simp [hmem, h1]
    unfold CodeDump.processFile
    rw [hv]
    simp [includeFile]

/-- Witness for C7: both behaviors at a force-included `.log` file under
the allow-list `{.py, .md}`. -/
theorem C7_force_include_extension_mismatch_witness :
    Dump.processFile ("x.log") ("x.log")
        (Dump.compileStage1Rules [("!x.log")]) none
        (some [(".py"), (".md")]) false initState
      = ({ processed := [], scanned := 1, included := 0, skipped := 1,
           output := [] }, Verdict.skippedExtForce)
    ∧ CodeDump.processFile ("x.log") ("x.log")
        (CodeDump.compileStage1Rules [("!x.log")]) (fun _ => false)
        (some [(".py"), (".md")]) false initState
      = ({ processed := [("x.log")], scanned := 1, included := 1, skipped := 0,
           output := [("x.log")] }, Verdict.forcedInclude) :=
  ⟨C7_force_include_extension_mismatch.1 ("x.log") ("x.log") _ none _ false
      initState (by decide) (by decide) (by decide),
   C7_force_include_extension_mismatch.2.2.2.2 ("x.log") ("x.log") _ _ _
      initState (by decide) (by decide)⟩

/-- Counterexample for C7 as stated: `src/CodeDump/dump.py`'s
`process_file`, given the force rule `!x.log` and the allow-list
`{.py, .md}`, writes `x.log`'s content (output non-empty, verdict
`forcedInclude`) instead of skipping it. -/
theorem C7_force_include_extension_mismatch_counterexample :
    extMatches (some [(".py"), (".md")]) ("x.log") = false
    ∧ (CodeDump.getStage1Outcome ("x.log")
        (CodeDump.compileStage1Rules [("!x.log")])).1
        = FilterOutcome.FORCE_INCLUDE
    ∧ (CodeDump.processFile ("x.log") ("x.log")
        (CodeDump.compileStage1Rules [("!x.log")]) (fun _ => false)
        (some [(".py"), (".md")]) false initState).1.output = [("x.log")]
    ∧ (CodeDump.processFile ("x.log") ("x.log")
        (CodeDump.compileStage1Rules [("!x.log")]) (fun _ => false)
        (some [(".py"), (".md")]) false initState).2 = Verdict.forcedInclude := by
  decide

end SourceDump

namespace SourceDump

/-- A path already recorded in `processed_files` is skipped by the early
guard of `process_file`. -/
theorem fileVerdict_of_mem (f fPath : String) (rules : List CompiledRule)
    (spec : Option (List String)) (exts : Option (List String))
    (processed : List String) (h : fPath ∈ processed) :
    Dump.fileVerdict f fPath rules spec exts processed
      = Verdict.alreadyProcessed := by
  unfold Dump.fileVerdict
  simp [h]

/-- `process_file` appends the path to `processed_files` exactly when the
verdict is an inclusion and the run is not a dry run; otherwise the set is
untouched. -/
theorem processFile_processed_frame (f fPath : String)
    (rules : List CompiledRule) (spec : Option (List String))
    (exts : Option (List String)) (dr : Bool) (st : ProcState) :
    (Dump.processFile f fPath rules spec exts dr st).1.processed
      = if dr = false ∧
           ((Dump.processFile f fPath rules spec exts dr st).2 = Verdict.forcedInclude
            ∨ (Dump.processFile f fPath rules spec exts dr st).2 = Verdict.included)
        then st.processed ++ [fPath] else st.processed := by
  cases hv : Dump.fileVerdict f fPath rules spec exts st.processed <;>
    cases dr <;>
      simp [Dump.processFile, hv, includeFile]

/-- The same frame fact for the output: content is written exactly when the
verdict is an inclusion in a non-dry run. -/
theorem processFile_output_frame (f fPath : String)
    (rules : List CompiledRule) (spec : Option (List String))
    (exts : Option (List String)) (dr : Bool) (st : ProcState) :
    (Dump.processFile f fPath rules spec exts dr st).1.output
      = if dr = false ∧
           ((Dump.processFile f fPath rules spec exts dr st).2 = Verdict.forcedInclude
            ∨ (Dump.processFile f fPath rules spec exts dr st).2 = Verdict.included)
        then st.output ++ [fPath] else st.output := by
  cases hv : Dump.fileVerdict f fPath rules spec exts st.processed <;>
    cases dr <;>
      simp [Dump.processFile, hv, includeFile]

/-- In a dry run `process_file` never changes the processed set or the
output. -/
theorem processFile_dry_frame (f fPath : String) (rules : List CompiledRule)
    (spec : Option (List String)) (exts : Option (List String))
    (st : ProcState) :
    (Dump.processFile f fPath rules spec exts true st).1.processed
        = st.processed
    ∧ (Dump.processFile f fPath rules spec exts true st).1.output
        = st.output := by
  cases hv : Dump.fileVerdict f fPath rules spec exts st.processed <;>
    simp [Dump.processFile, hv, includeFile]

/-- In a dry run the file loop of the walker never changes the processed
set or the output. -/
theorem processFiles_dry_frame (rules : List CompiledRule)
    (spec : Option (List String)) (exts : Option (List String))
    (rel : String) :
    ∀ (files : List String) (st : ProcState),
      (Dump.processFiles rules spec exts true rel files st).1.processed
          = st.processed
      ∧ (Dump.processFiles rules spec exts true rel files st).1.output
          = st.output := by
  intro files
  induction files with
  | nil => intro st; exact ⟨rfl, rfl⟩
  | cons f fs ih =>
    intro st
    have h1 := processFile_dry_frame f (rel ++ f) rules spec exts st
    have h2 := ih (Dump.processFile f (rel ++ f) rules spec exts true st).1
    simp only [Dump.processFiles]
    exact ⟨h2.1.trans h1.1, h2.2.trans h1.2⟩

/-- Folding a step function that preserves a state predicate preserves it
over any list. -/
theorem walk_foldl_preserve {P : ProcState → Prop}
    (g : ProcState × List Dump.WalkEvent → Dump.FSTree →
      ProcState × List Dump.WalkEvent)
    (hg : ∀ acc s, P acc.1 → P (g acc s).1) :
    ∀ (l : List Dump.FSTree) (acc : ProcState × List Dump.WalkEvent),
      P acc.1 → P (l.foldl g acc).1 := by
  intro l
  induction l with
  | nil => intro acc h; exact h
  | cons s ss ih =>
    intro acc h
    exact ih (g acc s) (hg acc s h)

/-- In a dry run the whole hierarchical walk never changes the processed
set or the output, whatever the fuel. -/
theorem walkTreeF_dry_frame (spec : Option (List String))
    (exts : Option (List String)) :
    ∀ (fuel : Nat) (t : Dump.FSTree) (rel : String) (raw : List String)
      (st : ProcState),
      (Dump.walkTreeF spec exts true fuel t rel raw st).1.processed
          = st.processed
      ∧ (Dump.walkTreeF spec exts true fuel t rel raw st).1.output
          = st.output := by
  intro fuel
  induction fuel with
  | zero => intro t rel raw st; exact ⟨rfl, rfl⟩
  | succ n ih =>
    intro t rel raw st
    cases t with
    | node nm di files subs =>
      simp only [Dump.walkTreeF]
      have hfold := walk_foldl_preserve
        (P := fun s => s.processed = st.processed ∧ s.output = st.output)
        (fun acc s =>
          let r := Dump.walkTreeF spec exts true n s
            (rel ++ s.name ++ "/") (Dump.childRaw raw di) acc.1
          (r.1, acc.2 ++ r.2))
        (by
          intro acc s hacc
          have h := ih s (rel ++ s.name ++ "/") (Dump.childRaw raw di) acc.1
          exact ⟨h.1.trans hacc.1, h.2.trans hacc.2⟩)
      have hfiles := processFiles_dry_frame
        (Dump.compileStage1Rules (Dump.childRaw raw di)) spec exts rel files
        { st with
            scanned := st.scanned +
              (subs.filter (fun s =>
                Dump.prunes (rel ++ s.name ++ "/")
                  (Dump.compileStage1Rules (Dump.childRaw raw di)))).length,
            skipped := st.skipped +
              (subs.filter (fun s =>
                Dump.prunes (rel ++ s.name ++ "/")
                  (Dump.compileStage1Rules (Dump.childRaw raw di)))).length }
      refine hfold _ _ ?_
      exact ⟨hfiles.1, hfiles.2⟩

end SourceDump

namespace SourceDump

/-- `process_file` preserves the at-most-once output bound: a path is
written only if it was not yet in `processed_files`, and is recorded there
in the same step. -/
theorem processFile_outputBound (f fPath : String)
    (rules : List CompiledRule) (spec : Option (List String))
    (exts : Option (List String)) (dr : Bool) (st : ProcState)
    (h : OutputBound st) :
    OutputBound (Dump.processFile f fPath rules spec exts dr st).1 := by
  have hp := processFile_processed_frame f fPath rules spec exts dr st
  have ho := processFile_output_frame f fPath rules spec exts dr st
  by_cases hc : dr = false ∧
      ((Dump.processFile f fPath rules spec exts dr st).2 = Verdict.forcedInclude
       ∨ (Dump.processFile f fPath rules spec exts dr st).2 = Verdict.included)
  · rw [if_pos hc] at hp ho
    have hmem : fPath ∉ st.processed := by
      intro hm
      have hv := fileVerdict_of_mem f fPath rules spec exts st.processed hm
      have heq : (Dump.processFile f fPath rules spec exts dr st).2
          = Verdict.alreadyProcessed := by
        simp [Dump.processFile, hv]
      rcases hc.2 with h2 | h2 <;> rw [heq] at h2 <;> exact absurd h2 (by decide)
    intro p
    rw [hp, ho, List.count_append]
    by_cases hpf : p = fPath
    · subst hpf
      have h0 := h p
      rw [if_neg hmem] at h0
      have hz : st.output.count p = 0 := Nat.le_zero.mp h0
      have hmem' : p ∈ st.processed ++ [p] := by simp
      rw [if_pos hmem', hz]
      simp
    · have hcnt : [fPath].count p = 0 := by
        simp [List.count_singleton']
        exact fun hh => absurd hh.symm hpf
      rw [hcnt, Nat.add_zero]
      have hmm : (p ∈ st.processed ++ [fPath]) ↔ p ∈ st.processed := by
        simp [List.mem_append]
        intro hh
        exact absurd hh hpf
      by_cases hpm : p ∈ st.processed
      · rw [if_pos (hmm.mpr hpm)]
        have := h p
        rwa [if_pos hpm] at this
      · rw [if_neg (fun hh => hpm (hmm.mp hh))]
        have := h p
        rwa [if_neg hpm] at this
  · rw [if_neg hc] at hp ho
    intro p
    rw [hp, ho]
    exact h p

/-- The walker's file loop preserves the at-most-once output bound. -/
theorem processFiles_outputBound (rules : List CompiledRule)
    (spec : Option (List String)) (exts : Option (List String))
    (rel : String) (dr : Bool) :
    ∀ (files : List String) (st : ProcState), OutputBound st →
      OutputBound (Dump.processFiles rules spec exts dr rel files st).1 := by
  intro files
  induction files with
  | nil => intro st h; exact h
  | cons f fs ih =>
    intro st h
    simp only [Dump.processFiles]
    exact ih _ (processFile_outputBound f (rel ++ f) rules spec exts dr st h)

/-- The hierarchical walk preserves the at-most-once output bound, whatever
the fuel. -/
theorem walkTreeF_outputBound (spec : Option (List String))
    (exts : Option (List String)) (dr : Bool) :
    ∀ (fuel : Nat) (t : Dump.FSTree) (rel : String) (raw : List String)
      (st : ProcState), OutputBound st →
      OutputBound (Dump.walkTreeF spec exts dr fuel t rel raw st).1 := by
  intro fuel
  induction fuel with
  | zero => intro t rel raw st h; exact h
  | succ n ih =>
    intro t rel raw st h
    cases t with
    | node nm di files subs =>
      simp only [Dump.walkTreeF]
      refine walk_foldl_preserve (P := OutputBound) _ ?_ _ _ ?_
      · intro acc s hacc
        exact ih s (rel ++ s.name ++ "/") (Dump.childRaw raw di) acc.1 hacc
      · refine processFiles_outputBound _ spec exts rel dr files _ ?_
        intro p
        exact h p

/-- The empty initial walk state satisfies the output bound. -/
theorem initState_outputBound : OutputBound initState := by
  intro p
  simp [initState]

end SourceDump

namespace SourceDump

/-- C9: `process_file` (`src/dump.py`) records a path in `processed_files`
(and writes its content) exactly when the verdict is an inclusion in a
non-dry run; an already-recorded path is returned untouched apart from the
scan counter; consequently a dry-run walk leaves the set unchanged (so it
stays empty) while any non-dry walk from the initial state writes each
relative path at most once — and walking the same one-file tree twice with
a shared state yields `included = 2` in a dry run but a single write in a
normal run. -/
theorem C9_processed_only_when_written :
    (∀ (f fPath : String) (rules : List CompiledRule)
        (spec : Option (List String)) (exts : Option (List String))
        (dr : Bool) (st : ProcState),
        (Dump.processFile f fPath rules spec exts dr st).1.processed
          = if dr = false ∧
               ((Dump.processFile f fPath rules spec exts dr st).2
                  = Verdict.forcedInclude
                ∨ (Dump.processFile f fPath rules spec exts dr st).2
                  = Verdict.included)
            then st.processed ++ [fPath] else st.processed)
    ∧ (∀ (f fPath : String) (rules : List CompiledRule)
        (spec : Option (List String)) (exts : Option (List String))
        (dr : Bool) (st : ProcState), fPath ∈ st.processed →
        Dump.processFile f fPath rules spec exts dr st
          = ({ st with scanned := st.scanned + 1 }, Verdict.alreadyProcessed))
    ∧ (∀ (spec exts : Option (List String)) (fuel : Nat) (t : Dump.FSTree)
        (rel : String) (raw : List String) (st : ProcState),
        (Dump.walkTreeF spec exts true fuel t rel raw st).1.processed
          = st.processed)
    ∧ (∀ (spec exts : Option (List String)) (fuel : Nat) (t : Dump.FSTree)
        (rel : String) (raw : List String),
        ((Dump.walkTreeF spec exts false fuel t rel raw initState).1.output).Nodup)
    ∧ (Dump.walkTreeF none none true 5 Dump.overlapTree ("") []
        (Dump.walkTreeF none none true 5 Dump.overlapTree ("") [] initState).1).1
      = { processed := [], scanned := 2, included := 2, skipped := 0,
          output := [] }
    ∧ (Dump.walkTreeF none none false 5 Dump.overlapTree ("") []
        (Dump.walkTreeF none none false 5 Dump.overlapTree ("") [] initState).1).1
      = { processed := [("a.py")], scanned := 2, included := 1, skipped := 0,
          output := [("a.py")] } := by
  refine ⟨processFile_processed_frame, ?_, ?_, ?_, by decide, by decide⟩
  · intro f fPath rules spec exts dr st hmem
    have hv := fileVerdict_of_mem f fPath rules spec exts st.processed hmem
    simp [Dump.processFile, hv]
  · intro spec exts fuel t rel raw st
    exact (walkTreeF_dry_frame spec exts fuel t rel raw st).1
  · intro spec exts fuel t rel raw
    refine List.nodup_iff_count_le_one.mpr ?_
    intro a
    have hb := walkTreeF_outputBound spec exts false fuel t rel raw initState
      initState_outputBound a
    refine hb.trans ?_
    split <;> omega

/-- Witness for C9: re-processing `a.py` when it is already recorded only
bumps the scan counter and reports `alreadyProcessed`. -/
theorem C9_processed_only_when_written_witness :
    Dump.processFile ("a.py") ("a.py") [] none none false
        { processed := [("a.py")], scanned := 1, included := 1, skipped := 0,
          output := [("a.py")] }
      = ({ processed := [("a.py")], scanned := 2, included := 1, skipped := 0,
           output := [("a.py")] },
         Verdict.alreadyProcessed) :=
  C9_processed_only_when_written.2.1 ("a.py") ("a.py") [] none none false
    { processed := [("a.py")], scanned := 1, included := 1, skipped := 0,
      output := [("a.py")] } (by decide)

end SourceDump
